import Mathlib

/-!
Verification of the MetaDao pool sniper core against its design description.

The development shallowly embeds the event-triggered transaction race
orchestrator: the trigger classifier (src/services/transactionParser.ts),
the Yellowstone stream client state (blockhash cache, listener map,
stop discipline), the submission executor option policy
(src/services/transactionExecutor.ts), and the orchestrator state machine
of src/automation/autoPool.ts and src/automation/autoLoyalPool.ts.
Strings are modelled as lists of characters; asynchronous effects
(RPC fetches, transaction submissions) are supplied as explicit oracle
inputs so the control flow of the embedded functions mirrors the source.
-/

namespace PoolSniper

/-- JS substring test `hay.includes(needle)`, on strings modelled as
character lists. -/
def includesSub (hay needle : List Char) : Bool :=
  decide (needle <:+: hay)

/-! ## Trigger detector (src/services/transactionParser.ts) -/

/-- The fixed pattern table of `detectInstruction`: one list of
case-insensitive substrings per instruction kind, in priority order. -/
def patterns : List (String × List (List Char)) :=
  [ ("completeLaunch", [String.toList "completelaunch", String.toList "complete launch"])
  , ("initializeLaunch", [String.toList "initializelaunch"])
  , ("startLaunch", [String.toList "startlaunch"])
  , ("fund", [String.toList "fund"])
  , ("refund", [String.toList "refund"])
  , ("claim", [String.toList "claim"]) ]

/-- JS join of the log lines with a single space separator, lowercased
(the `allLogs` value of `detectInstruction`). -/
def joinedLower (logs : List (List Char)) : List Char :=
  (List.intercalate [' '] logs).map Char.toLower

/-- Whether one pattern entry of the table matches the joined lowercased
logs (`match.some(m => allLogs.includes(m))`). -/
def patternHit (allLogs : List Char) (p : String × List (List Char)) : Bool :=
  p.2.any (fun m => includesSub allLogs m)

/-- `detectInstruction(logs)`: scan the pattern table in order and return
the name of the first entry whose substring list matches; return
"unknown" when none does. -/
def detectInstruction (logs : List (List Char)) : String :=
  let allLogs := joinedLower logs
  match patterns.find? (fun p => patternHit allLogs p) with
  | some p => p.1
  | none => "unknown"

/-- Result record of `parseMetaDAOTransaction`. -/
structure ParsedTransactionData where
  instructionType : String
deriving DecidableEq

/-- `parseMetaDAOTransaction(logs)`. -/
def parseMetaDAOTransaction (logs : List (List Char)) : ParsedTransactionData :=
  { instructionType := detectInstruction logs }

/-- `isCompleteLaunchTransaction(parsed)` of transactionParser.ts. -/
def isCompleteLaunchTransaction (parsed : ParsedTransactionData) : Bool :=
  parsed.instructionType == "completeLaunch"

/-! ## Yellowstone unified stream state (yellowstoneGrpc, src/unnamed/part_001) -/

/-- Mutable fields of `YellowstoneUnifiedStream` observable by the claims:
the cached blockhash anchor with its height and capture time, the
streaming flag, whether the grpc stream object is open, and the keys of
the transaction listener map. -/
structure YsState where
  latestBlockhash : Option String
  latestBlockHeight : Nat
  blockhashLastUpdate : Nat
  isStreaming : Bool
  streamOpen : Bool
  txCallbacks : List String
deriving DecidableEq

/-- A block or blockMeta frame carrying an optional blockhash, a block
height and a slot (the JS `||` fallback chain treats a zero height as
absent and falls back to the slot). -/
structure AnchorFrame where
  blockhash : Option String
  blockHeight : Nat
  slot : Nat
deriving DecidableEq

/-- The `data.block` / `data.blockMeta` branches of the stream data
handler in `startUnifiedStream`: when the frame carries a blockhash the
cached anchor is overwritten with the incoming values and the capture
time is set to now. -/
def applyAnchorFrame (now : Nat) (st : YsState) (f : AnchorFrame) : YsState :=
  match f.blockhash with
  | none => st
  | some h =>
      { st with
        latestBlockhash := some h
        latestBlockHeight := if f.blockHeight ≠ 0 then f.blockHeight else f.slot
        blockhashLastUpdate := now
        isStreaming := true }

/-- `getLatestBlockhash()`: the cached anchor, or none when absent. -/
def getLatestBlockhash (st : YsState) : Option (String × Nat) :=
  match st.latestBlockhash with
  | none => none
  | some h => some (h, st.latestBlockHeight)

/-- `isActive()`: streaming and a cached blockhash exists. -/
def isActive (st : YsState) : Bool :=
  st.isStreaming && st.latestBlockhash.isSome

/-- `getBlockhashAge()`: elapsed time since the cached anchor was set. -/
def getBlockhashAge (now : Nat) (st : YsState) : Nat :=
  now - st.blockhashLastUpdate

/-- `stopStreaming()`: end and drop the stream if open, clear the
streaming flag, clear the listener map. -/
def stopStreaming (st : YsState) : YsState :=
  { st with streamOpen := false, isStreaming := false, txCallbacks := [] }

/-! ## Submission executor (src/services/transactionExecutor.ts) -/

/-- Resolved per-send options. -/
structure SendOptions where
  skipPreflight : Bool
  maxRetries : Nat
deriving DecidableEq

/-- Optional overrides passed to `sendAndSign`. -/
structure SendOverrides where
  skipPreflight : Option Bool
  maxRetries : Option Nat
deriving DecidableEq

/-- The option fields of `TxExecutorConfig` relevant to option
resolution and blockhash sourcing. -/
structure TxExecutorConfig where
  skipPreflight : Option Bool
  maxRetries : Option Nat
  useGrpcBlockhash : Option Bool
deriving DecidableEq

/-- The option resolution of `sendAndSign`:
`options?.x ?? this.config.x ?? default`. -/
def resolveSendOptions (cfg : TxExecutorConfig) (o : Option SendOverrides) : SendOptions :=
  { skipPreflight := ((o.bind SendOverrides.skipPreflight).orElse (fun _ => cfg.skipPreflight)).getD false
  , maxRetries := ((o.bind SendOverrides.maxRetries).orElse (fun _ => cfg.maxRetries)).getD 2 }

/-- The options `sendClaim` fixes for every claim submission. -/
def sendClaimOptions (cfg : TxExecutorConfig) : SendOptions :=
  resolveSendOptions cfg (some { skipPreflight := some false, maxRetries := some 2 })

/-- The options `sendPoolCreation` fixes for every pool-creation
submission. -/
def sendPoolCreationOptions (cfg : TxExecutorConfig) : SendOptions :=
  resolveSendOptions cfg (some { skipPreflight := some true, maxRetries := some 0 })

/-- `TransactionExecutor.getBlockhash()`: when `useGrpcBlockhash` is not
explicitly false and the stream has a cached blockhash while active,
return the cached value; otherwise return the result of the direct RPC
fetch (supplied here as the oracle argument `rpcBlockhash`). -/
def getBlockhash (cfg : TxExecutorConfig) (st : YsState) (rpcBlockhash : String) : String :=
  if cfg.useGrpcBlockhash ≠ some false then
    match getLatestBlockhash st with
    | some cached => if isActive st then cached.1 else rpcBlockhash
    | none => rpcBlockhash
  else rpcBlockhash

/-! ## Race orchestrator (src/automation/autoPool.ts) -/

/-- The two reentrancy flags of the orchestrators. -/
structure OrchFlags where
  isExecuting : Bool
  hasExecuted : Bool
deriving DecidableEq

/-- The synchronous prefix of `AutoPoolOrchestrator.handleTransaction` on
one delivered event, up to and including the `this.isExecuting = true`
assignment at the top of `execute()`: events arriving while either flag
is set are dropped, non-matching events are dropped, and a matching event
from the clear state starts execution. Returns the updated flags and
whether this event started an execution attempt. -/
def handleTransactionStep (st : OrchFlags) (logs : List (List Char)) : OrchFlags × Bool :=
  if st.isExecuting || st.hasExecuted then (st, false)
  else if isCompleteLaunchTransaction (parseMetaDAOTransaction logs) then
    ({ st with isExecuting := true }, true)
  else (st, false)

/-- Fold `handleTransactionStep` over a burst of delivered events,
counting how many of them started an execution attempt. -/
def countStarts (st : OrchFlags) : List (List (List Char)) → Nat
  | [] => 0
  | logs :: rest =>
      let r := handleTransactionStep st logs
      (if r.2 then 1 else 0) + countStarts r.1 rest

/-! ## Execute with conflict fallback (autoPool.ts execute,
addLiquidityToExistingPool of poolCreator, src/unnamed/part_000) -/

/-- A submission error: a message plus optional program logs. -/
structure SubmitError where
  message : List Char
  logs : Option (List (List Char))
deriving DecidableEq

/-- The conflict test of `execute`: the message, or some program log
line, contains "already in use". -/
def isAlreadyInUse (e : SubmitError) : Bool :=
  includesSub e.message (String.toList "already in use")
    || (e.logs.getD []).any (fun log => includesSub log (String.toList "already in use"))

/-- The fatal test of `execute`: the message contains "already claimed"
or "No funding record". -/
def isFatalClaim (e : SubmitError) : Bool :=
  includesSub e.message (String.toList "already claimed")
    || includesSub e.message (String.toList "No funding record")

/-- On-chain pool state fields consumed by
`addLiquidityToExistingPool` (fetched fresh via `fetchPoolState`). -/
structure PoolState where
  tokenAMint : String
  tokenBMint : String
  sqrtMinPrice : Nat
  sqrtMaxPrice : Nat
  sqrtPrice : Nat
deriving DecidableEq

/-- Result of the external `getDepositQuote` computation. -/
structure DepositQuote where
  outputAmount : Nat
  liquidityDelta : Nat
deriving DecidableEq

/-- The just-in-time add-liquidity payload assembled by
`addLiquidityToExistingPool`. -/
structure AddLiqPayload where
  liquidityDelta : Nat
  maxAmountTokenA : Nat
  maxAmountTokenB : Nat
deriving DecidableEq

/-- Configured amounts and mint used on the fallback path. -/
structure FallbackConfig where
  baseMint : String
  tokenAmount : Nat
deriving DecidableEq

/-- Oracle for the effects performed during `execute`: the two primary
attempts (`executeInstantFire`, then `executeInSingleSlot` in the inner
catch), the fresh pool-state query, the external deposit-quote
computation (a function of the direction flag, the input amount and the
fetched pool state), and the fallback submission. -/
structure ExecEnv where
  attempt1 : Except SubmitError String
  attempt2 : Except SubmitError String
  fetchPoolState : Except SubmitError PoolState
  getDepositQuote : Bool → Nat → PoolState → DepositQuote
  sendAddLiquidity : AddLiqPayload → Except SubmitError String

/-- The payload `addLiquidityToExistingPool` builds from a fetched pool
state: direction from comparing the pool token A mint with the cached
base mint, amounts from the deposit quote on the fetched state. -/
def jitAddLiqPayload (env : ExecEnv) (cfg : FallbackConfig) (ps : PoolState) : AddLiqPayload :=
  let isTokenA := ps.tokenAMint == cfg.baseMint
  let q := env.getDepositQuote isTokenA cfg.tokenAmount ps
  { liquidityDelta := q.liquidityDelta
  , maxAmountTokenA := if isTokenA then cfg.tokenAmount else q.outputAmount
  , maxAmountTokenB := if isTokenA then q.outputAmount else cfg.tokenAmount }

/-- `addLiquidityToExistingPool()`: query the current pool state, build
the just-in-time payload from its deposit quote, submit it; also return
the payload that was submitted. -/
def addLiquidityToExistingPool (env : ExecEnv) (cfg : FallbackConfig) :
    Except SubmitError (String × AddLiqPayload) :=
  match env.fetchPoolState with
  | .error e => .error e
  | .ok ps =>
      let payload := jitAddLiqPayload env cfg ps
      match env.sendAddLiquidity payload with
      | .error e => .error e
      | .ok sig => .ok (sig, payload)

/-- How an `execute` run ends: process exit 0 with the successful
signature (Completed), process exit 1 (Failed), or return to monitoring
with the reentrancy flag cleared. -/
inductive ExecOutcome where
  | exit0 (signature : String)
  | exit1
  | monitoring
deriving DecidableEq

/-- Observable result of one `execute` call. -/
structure ExecResult where
  flags : OrchFlags
  outcome : ExecOutcome
  fallbackAttempted : Bool
deriving DecidableEq

/-- `AutoPoolOrchestrator.execute()`: set the reentrancy flag, run the
primary attempt with its inner retry, on success mark executed, stop the
stream and exit 0; on error run the conflict fallback when the error
indicates the pool address is already in use, then the fatal exit when
the error message indicates an already-claimed or missing funding
record, and otherwise clear the flag and resume monitoring. -/
def execute (env : ExecEnv) (cfg : FallbackConfig) (st : OrchFlags) : ExecResult :=
  let st1 : OrchFlags := { st with isExecuting := true }
  let primary : Except SubmitError String :=
    match env.attempt1 with
    | .ok sig => .ok sig
    | .error _ => env.attempt2
  match primary with
  | .ok sig => { flags := { st1 with hasExecuted := true }, outcome := .exit0 sig, fallbackAttempted := false }
  | .error e =>
      if isAlreadyInUse e then
        match addLiquidityToExistingPool env cfg with
        | .ok (sig, _) =>
            { flags := { st1 with hasExecuted := true }, outcome := .exit0 sig, fallbackAttempted := true }
        | .error _ =>
            if isFatalClaim e then
              { flags := { st1 with hasExecuted := true }, outcome := .exit1, fallbackAttempted := true }
            else
              { flags := { st1 with isExecuting := false }, outcome := .monitoring, fallbackAttempted := true }
      else if isFatalClaim e then
        { flags := { st1 with hasExecuted := true }, outcome := .exit1, fallbackAttempted := false }
      else
        { flags := { st1 with isExecuting := false }, outcome := .monitoring, fallbackAttempted := false }

/-! ## Loyal orchestrator handler (src/automation/autoLoyalPool.ts) -/

/-- A normalized log event delivered by the geyser client. -/
structure LogData where
  signature : String
  slot : Nat
  logs : List (List Char)
  err : Bool
deriving DecidableEq

/-- The completeLaunch log test `isCompleteLaunchTransaction(logs)` of
the geyser client (in src/services/streamTransactions.ts): some log line
contains "Instruction: CompleteLaunch", "complete_launch" or
"CompleteLaunch" (case sensitive). -/
def isCompleteLaunchLogs (logs : List (List Char)) : Bool :=
  logs.any (fun log =>
    includesSub log (String.toList "Instruction: CompleteLaunch")
      || includesSub log (String.toList "complete_launch")
      || includesSub log (String.toList "CompleteLaunch"))

/-- What `AutoLoyalPoolOrchestrator.handleTransaction` does with one
event. -/
inductive LoyalAction where
  | ignored
  | executing
deriving DecidableEq

/-- The synchronous prefix of
`AutoLoyalPoolOrchestrator.handleTransaction`, up to and including the
`this.isExecuting = true` assignment at the top of
`executeClaimAndPoolCreation()`. The launch-pubkey extractor of the
geyser client is passed as a function argument because only its result
drives the control flow here. -/
def loyalHandle (extractPk : List (List Char) → Option String) (target : String)
    (st : OrchFlags) (ev : LogData) : OrchFlags × LoyalAction :=
  if st.isExecuting || st.hasExecuted then (st, .ignored)
  else if ¬ isCompleteLaunchLogs ev.logs then (st, .ignored)
  else if ev.err then (st, .ignored)
  else
    match extractPk ev.logs with
    | some pk => if pk ≠ target then (st, .ignored) else ({ st with isExecuting := true }, .executing)
    | none => ({ st with isExecuting := true }, .executing)

/-- Fold `loyalHandle` over a burst of delivered events, counting how
many of them moved the loyal orchestrator into executing. -/
def countLoyalStarts (extractPk : List (List Char) → Option String) (target : String)
    (st : OrchFlags) : List LogData → Nat
  | [] => 0
  | ev :: rest =>
      let r := loyalHandle extractPk target st ev
      (if r.2 = LoyalAction.executing then 1 else 0)
        + countLoyalStarts extractPk target r.1 rest

/-- `AutoLoyalPoolOrchestrator.executeClaimAndPoolCreation()`: set the
reentrancy flag, run the single claim-plus-pool attempt
(`executeInSingleSlot`, supplied as the oracle argument); on success
mark executed, unsubscribe and exit 0; on an error whose message
indicates an already-claimed or missing funding record mark executed,
unsubscribe and exit 1; on any other error clear the flag and resume
monitoring. This orchestrator has no conflict fallback path at all. -/
def executeClaimAndPoolCreation (attempt : Except SubmitError String)
    (st : OrchFlags) : ExecResult :=
  let st1 : OrchFlags := { st with isExecuting := true }
  match attempt with
  | .ok sig =>
      { flags := { st1 with hasExecuted := true }, outcome := .exit0 sig
      , fallbackAttempted := false }
  | .error e =>
      if isFatalClaim e then
        { flags := { st1 with hasExecuted := true }, outcome := .exit1
        , fallbackAttempted := false }
      else
        { flags := { st1 with isExecuting := false }, outcome := .monitoring
        , fallbackAttempted := false }

/-! ## Helper lemmas -/

theorem includesSub_iff (hay needle : List Char) :
    includesSub hay needle = true ↔ needle <:+: hay := by
  simp [includesSub]

theorem includesSub_refund_imp_fund (al : List Char)
    (h : includesSub al (String.toList "refund") = true) :
    includesSub al (String.toList "fund") = true := by
  rw [includesSub_iff] at h ⊢
  exact List.IsInfix.trans (by decide) h

theorem find?_eq_get_of_first {α : Type} (f : α → Bool) :
    ∀ (l : List α) (i : Nat) (hi : i < l.length),
      f (l.get ⟨i, hi⟩) = true →
      (∀ j : Nat, ∀ hj : j < l.length, j < i → f (l.get ⟨j, hj⟩) = false) →
      l.find? f = some (l.get ⟨i, hi⟩)
  | [], i, hi => by simp at hi
  | a :: l, 0, hi => by
      intro ha _
      simp only [List.get] at ha ⊢
      simp [List.find?, ha]
  | a :: l, i + 1, hi => by
      intro ha hbef
      have ha0 : f a = false := hbef 0 (Nat.succ_pos _) (Nat.succ_pos _)
      have ih := find?_eq_get_of_first f l i (Nat.lt_of_succ_lt_succ hi)
        ha (fun j hj hji => hbef (j + 1) (Nat.succ_lt_succ hj) (Nat.succ_lt_succ hji))
      simp [List.find?, ha0, ih]

/-! ## Claim theorems -/

/-- C7: the trigger classifier is total and deterministic: on every list
of log lines it returns the same result on repeated calls, it returns
"unknown" exactly when no pattern list matches the joined lowercased
logs, and when some pattern list matches it returns the kind of the
first matching entry in the fixed priority order. -/
theorem detectInstruction_first_match_total (logs : List (List Char)) :
    (detectInstruction logs = detectInstruction logs)
    ∧ ((∀ p ∈ patterns, patternHit (joinedLower logs) p = false) →
        detectInstruction logs = "unknown")
    ∧ (∀ i : Nat, ∀ hi : i < patterns.length,
        patternHit (joinedLower logs) (patterns.get ⟨i, hi⟩) = true →
        (∀ j : Nat, ∀ hj : j < patterns.length, j < i →
          patternHit (joinedLower logs) (patterns.get ⟨j, hj⟩) = false) →
        detectInstruction logs = (patterns.get ⟨i, hi⟩).1) := by
  refine ⟨rfl, ?_, ?_⟩
  · intro hnone
    have : patterns.find? (fun p => patternHit (joinedLower logs) p) = none := by
      rw [List.find?_eq_none]
      intro p hp
      simp [hnone p hp]
    simp [detectInstruction, this]
  · intro i hi hhit hbef
    have := find?_eq_get_of_first (fun p => patternHit (joinedLower logs) p)
      patterns i hi hhit hbef
    simp [detectInstruction, this]

/-- C7 witness: on the empty log list no pattern matches and the
classifier returns "unknown". -/
theorem detectInstruction_first_match_total_witness :
    detectInstruction [] = "unknown" :=
  (detectInstruction_first_match_total []).2.1 (by decide)

/-- C10: the classifier never returns "refund": the fund pattern list is
checked before the refund pattern list and "fund" is a substring of
"refund", so any log set matching the refund entry already matched an
earlier entry. -/
theorem detectInstruction_never_refund (logs : List (List Char)) :
    detectInstruction logs ≠ "refund" := by
  intro h
  unfold detectInstruction at h
  simp only [patterns, List.find?] at h
  split at h
  next x heq =>
    split at heq
    · cases heq; simp at h
    · split at heq
      · cases heq; simp at h
      · split at heq
        · cases heq; simp at h
        · split at heq
          · cases heq; simp at h
          · split at heq
            · cases heq
              rename_i xf hfund xr hrefund
              have hr : includesSub (joinedLower logs) (String.toList "refund") = true := by
                simpa [patternHit] using hrefund
              have hf := includesSub_refund_imp_fund (joinedLower logs) hr
              have hf2 : includesSub (joinedLower logs) ['f', 'u', 'n', 'd'] = true := hf
              simp [patternHit, hf2] at hfund
            · split at heq
              · cases heq; simp at h
              · cases heq
  next heq => simp at h

/-- C9: stopping the event stream client is idempotent: calling
stopStreaming twice yields the same state as calling it once, and after
one call the listener map is empty, the stream is closed and isActive is
false. -/
theorem stopStreaming_idempotent (st : YsState) :
    stopStreaming (stopStreaming st) = stopStreaming st
    ∧ (stopStreaming st).txCallbacks = []
    ∧ (stopStreaming st).streamOpen = false
    ∧ isActive (stopStreaming st) = false := by
  cases st
  simp [stopStreaming, isActive]

/-- C6: the executor applies a fixed per-kind policy for every
configuration: claim submissions resolve to preflight validation enabled
with 2 retries, pool-creation submissions resolve to preflight skipped
with 0 retries. -/
theorem sendOptions_per_kind (cfg : TxExecutorConfig) :
    sendClaimOptions cfg = { skipPreflight := false, maxRetries := 2 }
    ∧ sendPoolCreationOptions cfg = { skipPreflight := true, maxRetries := 0 } :=
  ⟨rfl, rfl⟩

/-- C2 counterexample: the anchor cache is not monotonic by height.
Applying stream frames with heights [10, 7, 15, 12] in that order leaves
the cache at the last written anchor (height 12), not at the highest
(height 15). -/
theorem anchorCache_not_monotonic :
    getLatestBlockhash
        (([⟨some "a", 10, 0⟩, ⟨some "b", 7, 0⟩, ⟨some "c", 15, 0⟩, ⟨some "d", 12, 0⟩] :
            List AnchorFrame).foldl (applyAnchorFrame 5)
          ⟨none, 0, 0, false, true, []⟩)
      = some ("d", 12)
    ∧ getLatestBlockhash
        (([⟨some "a", 10, 0⟩, ⟨some "b", 7, 0⟩, ⟨some "c", 15, 0⟩, ⟨some "d", 12, 0⟩] :
            List AnchorFrame).foldl (applyAnchorFrame 5)
          ⟨none, 0, 0, false, true, []⟩)
      ≠ some ("c", 15) := by
  decide

/-- C2 amended: the anchor cache is last-writer-wins by arrival order:
every frame carrying a blockhash unconditionally overwrites the stored
anchor, with no height comparison; in particular after the heights
[10, 7, 15, 12] the cache holds the anchor with height 12. -/
theorem anchorCache_last_writer_wins (now : Nat) (st : YsState) (f : AnchorFrame)
    (h : String) (hf : f.blockhash = some h) :
    ((applyAnchorFrame now st f).latestBlockhash = some h
      ∧ (applyAnchorFrame now st f).latestBlockHeight
          = (if f.blockHeight ≠ 0 then f.blockHeight else f.slot)
      ∧ (applyAnchorFrame now st f).blockhashLastUpdate = now)
    ∧ getLatestBlockhash
        (([⟨some "a", 10, 0⟩, ⟨some "b", 7, 0⟩, ⟨some "c", 15, 0⟩, ⟨some "d", 12, 0⟩] :
            List AnchorFrame).foldl (applyAnchorFrame now)
          ⟨none, 0, 0, false, true, []⟩)
      = some ("d", 12) := by
  constructor
  · simp [applyAnchorFrame, hf]
  · simp [List.foldl, applyAnchorFrame, getLatestBlockhash]

/-- C2 amended witness: a frame with height 7 overwrites a stored anchor
with height 100. -/
theorem anchorCache_last_writer_wins_witness :
    ((applyAnchorFrame 5 ⟨some "x", 100, 0, true, true, []⟩ ⟨some "y", 7, 3⟩).latestBlockhash = some "y"
      ∧ (applyAnchorFrame 5 ⟨some "x", 100, 0, true, true, []⟩ ⟨some "y", 7, 3⟩).latestBlockHeight
          = (if (7 : Nat) ≠ 0 then 7 else 3)
      ∧ (applyAnchorFrame 5 ⟨some "x", 100, 0, true, true, []⟩ ⟨some "y", 7, 3⟩).blockhashLastUpdate = 5)
    ∧ getLatestBlockhash
        (([⟨some "a", 10, 0⟩, ⟨some "b", 7, 0⟩, ⟨some "c", 15, 0⟩, ⟨some "d", 12, 0⟩] :
            List AnchorFrame).foldl (applyAnchorFrame 5)
          ⟨none, 0, 0, false, true, []⟩)
      = some ("d", 12) :=
  anchorCache_last_writer_wins 5 ⟨some "x", 100, 0, true, true, []⟩ ⟨some "y", 7, 3⟩ "y" rfl

/-- C3 counterexample: with a cached anchor 10 seconds old, a 5 second
staleness bound and an active stream, getBlockhash returns the cached
value instead of the direct-fetch result. -/
theorem getBlockhash_reuses_stale_cache :
    getBlockhashAge 10000 (⟨some "CACHED", 3, 0, true, true, []⟩ : YsState) = 10000
    ∧ 5000 < getBlockhashAge 10000 (⟨some "CACHED", 3, 0, true, true, []⟩ : YsState)
    ∧ isActive (⟨some "CACHED", 3, 0, true, true, []⟩ : YsState) = true
    ∧ getBlockhash ⟨none, none, none⟩ (⟨some "CACHED", 3, 0, true, true, []⟩ : YsState) "FRESH" = "CACHED"
    ∧ getBlockhash ⟨none, none, none⟩ (⟨some "CACHED", 3, 0, true, true, []⟩ : YsState) "FRESH" ≠ "FRESH" := by
  decide

/-- C3 amended: getBlockhash reuses the cached anchor exactly when a
cached anchor exists, the stream is active and grpc blockhash use is not
disabled, with no staleness check at all (the capture time of the state
is arbitrary); in every other case it returns the direct fetch result. -/
theorem getBlockhash_ignores_age (cfg : TxExecutorConfig) (st : YsState) (rpc : String) :
    (∀ h : String, st.latestBlockhash = some h → isActive st = true →
      cfg.useGrpcBlockhash ≠ some false → getBlockhash cfg st rpc = h)
    ∧ (isActive st = false → getBlockhash cfg st rpc = rpc)
    ∧ (cfg.useGrpcBlockhash = some false → getBlockhash cfg st rpc = rpc)
    ∧ (st.latestBlockhash = none → getBlockhash cfg st rpc = rpc) := by
  refine ⟨?_, ?_, ?_, ?_⟩
  · intro h hc ha hg
    simp [getBlockhash, getLatestBlockhash, hc, ha, hg]
  · intro ha
    simp only [getBlockhash]
    split
    · cases hc : st.latestBlockhash with
      | none => simp [getLatestBlockhash, hc]
      | some h => simp [getLatestBlockhash, hc, ha]
    · rfl
  · intro hg
    simp [getBlockhash, hg]
  · intro hc
    simp [getBlockhash, getLatestBlockhash, hc]

/-- C3 amended witness: a 10 second old cached anchor with an active
stream is still reused. -/
theorem getBlockhash_ignores_age_witness :
    getBlockhash ⟨none, none, none⟩ (⟨some "CACHED", 3, 0, true, true, []⟩ : YsState) "FRESH" = "CACHED" :=
  (getBlockhash_ignores_age ⟨none, none, none⟩ ⟨some "CACHED", 3, 0, true, true, []⟩ "FRESH").1
    "CACHED" rfl rfl (by decide)

theorem handleTransactionStep_noop (st : OrchFlags) (logs : List (List Char))
    (h : st.isExecuting = true ∨ st.hasExecuted = true) :
    handleTransactionStep st logs = (st, false) := by
  rcases h with h | h <;> simp [handleTransactionStep, h]

theorem countStarts_of_executing (evs : List (List (List Char))) :
    ∀ st : OrchFlags, st.isExecuting = true → countStarts st evs = 0 := by
  induction evs with
  | nil => intro st _; rfl
  | cons e rest ih =>
      intro st hst
      rw [countStarts, handleTransactionStep_noop st e (Or.inl hst)]
      simpa using ih st hst

theorem loyalHandle_noop (extractPk : List (List Char) → Option String)
    (target : String) (st : OrchFlags) (ev : LogData)
    (h : st.isExecuting = true ∨ st.hasExecuted = true) :
    loyalHandle extractPk target st ev = (st, LoyalAction.ignored) := by
  rcases h with h | h <;> simp [loyalHandle, h]

theorem loyalHandle_starts (extractPk : List (List Char) → Option String)
    (target : String) (ev : LogData)
    (hcl : isCompleteLaunchLogs ev.logs = true) (herr : ev.err = false)
    (hid : extractPk ev.logs = none ∨ extractPk ev.logs = some target) :
    loyalHandle extractPk target ⟨false, false⟩ ev
      = (⟨true, false⟩, LoyalAction.executing) := by
  rcases hid with h | h <;> simp [loyalHandle, hcl, herr, h]

theorem countLoyalStarts_of_executing (extractPk : List (List Char) → Option String)
    (target : String) (levs : List LogData) :
    ∀ st : OrchFlags, st.isExecuting = true →
      countLoyalStarts extractPk target st levs = 0 := by
  induction levs with
  | nil => intro st _; rfl
  | cons ev rest ih =>
      intro st hst
      rw [countLoyalStarts, loyalHandle_noop extractPk target st ev (Or.inl hst)]
      simpa using ih st hst

/-- C1: at most one execution attempt sequence per run, in either
orchestrator: for every nonempty burst of delivered events that all
classify as completeLaunch, exactly one event flips the auto pool
handler from monitoring into executing (namely the first); likewise for
the loyal handler on a nonempty burst of non-failed completeLaunch
events whose extracted pubkey is absent or matches the target; and every
event handled while isExecuting or hasExecuted is set leaves the state
unchanged and starts nothing, in either orchestrator. -/
theorem at_most_one_execution (evs : List (List (List Char)))
    (hne : evs ≠ [])
    (hall : ∀ e ∈ evs, detectInstruction e = "completeLaunch") :
    countStarts ⟨false, false⟩ evs = 1
    ∧ (∀ extractPk : List (List Char) → Option String, ∀ target : String,
        ∀ levs : List LogData, levs ≠ [] →
        (∀ ev ∈ levs, isCompleteLaunchLogs ev.logs = true ∧ ev.err = false
          ∧ (extractPk ev.logs = none ∨ extractPk ev.logs = some target)) →
        countLoyalStarts extractPk target ⟨false, false⟩ levs = 1)
    ∧ (∀ st : OrchFlags, ∀ logs : List (List Char),
        st.isExecuting = true ∨ st.hasExecuted = true →
        handleTransactionStep st logs = (st, false))
    ∧ (∀ extractPk : List (List Char) → Option String, ∀ target : String,
        ∀ st : OrchFlags, ∀ ev : LogData,
        st.isExecuting = true ∨ st.hasExecuted = true →
        loyalHandle extractPk target st ev = (st, LoyalAction.ignored)) := by
  refine ⟨?_, ?_, handleTransactionStep_noop, loyalHandle_noop⟩
  · cases evs with
    | nil => exact absurd rfl hne
    | cons e rest =>
        have hmatch : isCompleteLaunchTransaction (parseMetaDAOTransaction e) = true := by
          simp [isCompleteLaunchTransaction, parseMetaDAOTransaction,
            hall e (List.mem_cons_self e rest)]
        have hstep : handleTransactionStep ⟨false, false⟩ e = (⟨true, false⟩, true) := by
          simp [handleTransactionStep, hmatch]
        rw [countStarts, hstep]
        simpa using countStarts_of_executing rest ⟨true, false⟩ rfl
  · intro extractPk target levs hlne hlall
    cases levs with
    | nil => exact absurd rfl hlne
    | cons ev rest =>
        obtain ⟨hcl, herr, hid⟩ := hlall ev (List.mem_cons_self ev rest)
        have hstep := loyalHandle_starts extractPk target ev hcl herr hid
        rw [countLoyalStarts, hstep]
        simpa using countLoyalStarts_of_executing extractPk target rest ⟨true, false⟩ rfl

/-- C1 witness: two completeLaunch events delivered in a burst start
exactly one execution attempt. -/
theorem at_most_one_execution_witness :
    countStarts ⟨false, false⟩
        [[String.toList "Instruction: CompleteLaunch"],
         [String.toList "Instruction: CompleteLaunch"]] = 1 :=
  (at_most_one_execution
      [[String.toList "Instruction: CompleteLaunch"],
       [String.toList "Instruction: CompleteLaunch"]]
      (by decide) (by decide)).1

/-- C8: correlation-id matching fails open: for an event that classifies
as completeLaunch and did not fail, when no launch pubkey can be
extracted from its logs the loyal orchestrator still transitions to
executing, while an extracted pubkey different from the target makes the
event a no-op. -/
theorem correlation_fails_open (extractPk : List (List Char) → Option String)
    (target : String) (ev : LogData)
    (hcl : isCompleteLaunchLogs ev.logs = true) (herr : ev.err = false) :
    (extractPk ev.logs = none →
      loyalHandle extractPk target ⟨false, false⟩ ev
        = (⟨true, false⟩, LoyalAction.executing))
    ∧ (∀ pk : String, extractPk ev.logs = some pk → pk ≠ target →
      loyalHandle extractPk target ⟨false, false⟩ ev
        = (⟨false, false⟩, LoyalAction.ignored)) := by
  constructor
  · intro hnone
    simp [loyalHandle, hcl, herr, hnone]
  · intro pk hsome hne
    simp [loyalHandle, hcl, herr, hsome, hne]

/-- C8 witness: a successful event whose logs match only the bare
CompleteLaunch substring, with no extractable pubkey, transitions the
loyal orchestrator to executing. -/
theorem correlation_fails_open_witness :
    loyalHandle (fun _ => none) "TARGET" ⟨false, false⟩
        ⟨"sig1", 1, [String.toList "CompleteLaunch hit"], false⟩
      = (⟨true, false⟩, LoyalAction.executing) :=
  (correlation_fails_open (fun _ => none) "TARGET"
      ⟨"sig1", 1, [String.toList "CompleteLaunch hit"], false⟩
      (by decide) rfl).1 rfl

/-- C4: conflict fallback: when both primary pool-creation attempts fail
with a resource-already-in-use error, the orchestrator re-queries the
pool state, builds the just-in-time add-liquidity payload from the
deposit quote on that fetched state, submits it, and ends the run as
Completed (exit 0) with the fallback signature, not as Failed. -/
theorem conflict_fallback_completes (env : ExecEnv) (cfg : FallbackConfig)
    (e1 e : SubmitError) (ps : PoolState) (sig : String)
    (h1 : env.attempt1 = .error e1) (h2 : env.attempt2 = .error e)
    (hu : isAlreadyInUse e = true)
    (hp : env.fetchPoolState = .ok ps)
    (hs : env.sendAddLiquidity (jitAddLiqPayload env cfg ps) = .ok sig) :
    execute env cfg ⟨false, false⟩
      = { flags := ⟨true, true⟩, outcome := .exit0 sig, fallbackAttempted := true }
    ∧ addLiquidityToExistingPool env cfg = .ok (sig, jitAddLiqPayload env cfg ps) := by
  have hfall : addLiquidityToExistingPool env cfg = .ok (sig, jitAddLiqPayload env cfg ps) := by
    simp [addLiquidityToExistingPool, hp, hs]
  refine ⟨?_, hfall⟩
  simp [execute, h1, h2, hu, hfall]

/-- C4 witness: a concrete already-in-use failure followed by a
successful fallback submission ends with exit 0. -/
theorem conflict_fallback_completes_witness :
    execute
        ⟨.error ⟨String.toList "already in use", none⟩,
         .error ⟨String.toList "already in use", none⟩,
         .ok ⟨"MINT", "SOL", 1, 9, 4⟩,
         fun _ amt _ => ⟨amt + 1, 2⟩,
         fun _ => .ok "fb"⟩
        ⟨"MINT", 5⟩ ⟨false, false⟩
      = { flags := ⟨true, true⟩, outcome := .exit0 "fb", fallbackAttempted := true }
    ∧ addLiquidityToExistingPool
        ⟨.error ⟨String.toList "already in use", none⟩,
         .error ⟨String.toList "already in use", none⟩,
         .ok ⟨"MINT", "SOL", 1, 9, 4⟩,
         fun _ amt _ => ⟨amt + 1, 2⟩,
         fun _ => .ok "fb"⟩
        ⟨"MINT", 5⟩
      = .ok ("fb",
          jitAddLiqPayload
            ⟨.error ⟨String.toList "already in use", none⟩,
             .error ⟨String.toList "already in use", none⟩,
             .ok ⟨"MINT", "SOL", 1, 9, 4⟩,
             fun _ amt _ => ⟨amt + 1, 2⟩,
             fun _ => .ok "fb"⟩
            ⟨"MINT", 5⟩ ⟨"MINT", "SOL", 1, 9, 4⟩) :=
  conflict_fallback_completes
    ⟨.error ⟨String.toList "already in use", none⟩,
     .error ⟨String.toList "already in use", none⟩,
     .ok ⟨"MINT", "SOL", 1, 9, 4⟩,
     fun _ amt _ => ⟨amt + 1, 2⟩,
     fun _ => .ok "fb"⟩
    ⟨"MINT", 5⟩
    ⟨String.toList "already in use", none⟩
    ⟨String.toList "already in use", none⟩
    ⟨"MINT", "SOL", 1, 9, 4⟩ "fb"
    rfl rfl (by decide) rfl rfl

/-- C5 counterexample: a submission error whose message contains both
"already in use" and "already claimed" is fatal by the claimed
classification, yet the orchestrator attempts the fallback and, when the
fallback succeeds, exits 0 instead of reaching Failed with exit 1. -/
theorem fatal_claim_fallback_attempted :
    isFatalClaim ⟨String.toList "already in use, already claimed", none⟩ = true
    ∧ (execute
        ⟨.error ⟨String.toList "already in use, already claimed", none⟩,
         .error ⟨String.toList "already in use, already claimed", none⟩,
         .ok ⟨"MINT", "SOL", 1, 9, 4⟩,
         fun _ amt _ => ⟨amt + 1, 2⟩,
         fun _ => .ok "fb"⟩
        ⟨"MINT", 5⟩ ⟨false, false⟩).fallbackAttempted = true
    ∧ (execute
        ⟨.error ⟨String.toList "already in use, already claimed", none⟩,
         .error ⟨String.toList "already in use, already claimed", none⟩,
         .ok ⟨"MINT", "SOL", 1, 9, 4⟩,
         fun _ amt _ => ⟨amt + 1, 2⟩,
         fun _ => .ok "fb"⟩
        ⟨"MINT", 5⟩ ⟨false, false⟩).outcome ≠ ExecOutcome.exit1 := by
  decide

/-- C5 amended: in the loyal orchestrator, which has no fallback path,
every submission error whose message contains "already claimed" or "No
funding record" makes the run reach Failed with process exit code 1 and
no fallback attempt; in the auto pool orchestrator the same holds for
every such error that is not also classified as a
resource-already-in-use conflict. -/
theorem fatal_claim_exits_one (env : ExecEnv) (cfg : FallbackConfig)
    (st st2 : OrchFlags) (e1 e e2 : SubmitError)
    (h1 : env.attempt1 = .error e1) (h2 : env.attempt2 = .error e)
    (hnu : isAlreadyInUse e = false) (hfc : isFatalClaim e = true)
    (hfc2 : isFatalClaim e2 = true) :
    execute env cfg st
      = { flags := { st with isExecuting := true, hasExecuted := true },
          outcome := .exit1, fallbackAttempted := false }
    ∧ executeClaimAndPoolCreation (.error e2) st2
      = { flags := { st2 with isExecuting := true, hasExecuted := true },
          outcome := .exit1, fallbackAttempted := false } := by
  constructor
  · simp [execute, h1, h2, hnu, hfc]
  · simp [executeClaimAndPoolCreation, hfc2]

/-- C5 amended witness: an already-claimed error with no conflict
indication exits 1 without a fallback attempt in the auto pool
orchestrator, and an already-claimed error exits 1 in the loyal
orchestrator. -/
theorem fatal_claim_exits_one_witness :
    execute
        ⟨.error ⟨String.toList "Tokens already claimed", none⟩,
         .error ⟨String.toList "Tokens already claimed", none⟩,
         .error ⟨String.toList "no pool", none⟩,
         fun _ amt _ => ⟨amt, 1⟩,
         fun _ => .error ⟨String.toList "no pool", none⟩⟩
        ⟨"MINT", 5⟩ ⟨false, false⟩
      = { flags := { isExecuting := true, hasExecuted := true },
          outcome := .exit1, fallbackAttempted := false }
    ∧ executeClaimAndPoolCreation
        (.error ⟨String.toList "Tokens already claimed", none⟩) ⟨false, false⟩
      = { flags := { isExecuting := true, hasExecuted := true },
          outcome := .exit1, fallbackAttempted := false } :=
  fatal_claim_exits_one
    ⟨.error ⟨String.toList "Tokens already claimed", none⟩,
     .error ⟨String.toList "Tokens already claimed", none⟩,
     .error ⟨String.toList "no pool", none⟩,
     fun _ amt _ => ⟨amt, 1⟩,
     fun _ => .error ⟨String.toList "no pool", none⟩⟩
    ⟨"MINT", 5⟩ ⟨false, false⟩ ⟨false, false⟩
    ⟨String.toList "Tokens already claimed", none⟩
    ⟨String.toList "Tokens already claimed", none⟩
    ⟨String.toList "Tokens already claimed", none⟩
    rfl rfl (by decide) (by decide) (by decide)

end PoolSniper
